import Mathlib

/-!
Shallow embedding of the truthlens fake-news classification pipeline
(`src/data_preprocessing.py`, `src/fake_news_classifier.py`,
`src/model_handler.py`) and proofs about the behaviours its
specification claims.

Strings are modelled as Lean `String` (a wrapper around `List Char`);
Python's Unicode character classes (`\w`, `\p{L}`, `str.isupper`,
`str.upper`) are modelled by Lean's `Char` predicates, which agree with
Python on the ASCII inputs used in every concrete witness and
counterexample below.
-/

namespace TruthLens

/-- Whitespace test, modelling Python's `\s` / `str.split()` / `str.strip()`
notion of whitespace. -/
def isWs (c : Char) : Bool := c.isWhitespace

/-- Word character, modelling the `\w` class of the cleaning regex
`[^\w\s.,!?;:'-]` in `TextPreprocessor.clean_text`: a letter, a digit or an
underscore. -/
def isWordChar (c : Char) : Bool := c.isAlpha || c.isDigit || c = '_'

/-- Membership in the punctuation allow-list `. , ! ? ; : ' -` kept by the
cleaning regex `[^\w\s.,!?;:'-]`. -/
def isAllowedPunct (c : Char) : Bool :=
  c = '.' || c = ',' || c = '!' || c = '?' || c = ';' || c = ':' || c = '\'' || c = '-'

/-- Membership in the character class `[.,!?;:]` of the run-collapsing regex
`([.,!?;:])\1+` in `TextPreprocessor.clean_text`.  Note this class omits the
apostrophe and the hyphen that the allow-list keeps. -/
def isCollapsiblePunct (c : Char) : Bool :=
  c = '.' || c = ',' || c = '!' || c = '?' || c = ';' || c = ':'

/-- Characters kept by the substitution `re.sub(r'[^\w\s.,!?;:\'-]', '', text)`. -/
def isKept (c : Char) : Bool := isWordChar c || isWs c || isAllowedPunct c

/-- Unicode letter test, modelling the `\p{L}` search in
`TextPreprocessor.validate_input`. -/
def isUnicodeLetter (c : Char) : Bool := c.isAlpha

/-- List-level model of Python's `str.strip()`: drop whitespace from both
ends. -/
def stripWs (l : List Char) : List Char := (l.dropWhile isWs).rdropWhile isWs

/-- String-level model of Python's `str.strip()`. -/
def pyStrip (s : String) : String := ⟨stripWs s.data⟩

/-- Model of `TextPreprocessor.validate_input(text, min_length, max_length)`:
empty check, then too-short, then too-long, then the Unicode-letter check,
returning the first failing check's message. -/
def validate_input (text : String) (min_length max_length : Nat) :
    Bool × Option String :=
  if text = "" || pyStrip text = "" then
    (false, some "Text cannot be empty")
  else
    let cleaned_text := pyStrip text
    if cleaned_text.length < min_length then
      (false, some ("Text too short. Minimum " ++ toString min_length ++
        " characters required"))
    else if cleaned_text.length > max_length then
      (false, some ("Text too long. Maximum " ++ toString max_length ++
        " characters allowed"))
    else if !(cleaned_text.data.any isUnicodeLetter) then
      (false, some "Text must contain alphabetic characters")
    else
      (true, none)

lemma dropWhile_stripWs (l : List Char) :
    (stripWs l).dropWhile isWs = stripWs l := by
  rw [stripWs]
  rcases h : (l.dropWhile isWs).rdropWhile isWs with _ | ⟨c, cs⟩
  · simp
  · have hpre : (l.dropWhile isWs).rdropWhile isWs <+: l.dropWhile isWs :=
      List.rdropWhile_prefix _ _
    rw [h] at hpre
    obtain ⟨t, ht⟩ := hpre
    have hc : isWs c = false := by
      have hh := List.head?_dropWhile_not isWs l
      rw [← ht] at hh
      simpa using hh
    simp [hc]

lemma stripWs_idem (l : List Char) : stripWs (stripWs l) = stripWs l := by
  conv_lhs => rw [stripWs, dropWhile_stripWs l]
  rw [stripWs, List.rdropWhile_idempotent]

lemma pyStrip_idem (s : String) : pyStrip (pyStrip s) = pyStrip s := by
  simp [pyStrip, stripWs_idem]

lemma pyStrip_empty : pyStrip "" = "" := rfl

/-- C5: `validate_input` runs its checks in the fixed order
empty → too short → too long → no alphabetic characters, and returns
`(false, message)` for the first failing check only; text that passes all
four checks validates as `(true, none)`. -/
theorem claim_C5_validate_order (min_length max_length : Nat) :
    (∀ text : String, pyStrip text = "" →
      validate_input text min_length max_length =
        (false, some "Text cannot be empty")) ∧
    (∀ text : String, pyStrip text ≠ "" →
      (pyStrip text).length < min_length →
      validate_input text min_length max_length =
        (false, some ("Text too short. Minimum " ++ toString min_length ++
          " characters required"))) ∧
    (∀ text : String, pyStrip text ≠ "" →
      min_length ≤ (pyStrip text).length →
      max_length < (pyStrip text).length →
      validate_input text min_length max_length =
        (false, some ("Text too long. Maximum " ++ toString max_length ++
          " characters allowed"))) ∧
    (∀ text : String, pyStrip text ≠ "" →
      min_length ≤ (pyStrip text).length →
      (pyStrip text).length ≤ max_length →
      (¬ ∃ c ∈ (pyStrip text).data, isUnicodeLetter c) →
      validate_input text min_length max_length =
        (false, some "Text must contain alphabetic characters")) ∧
    (∀ text : String, pyStrip text ≠ "" →
      min_length ≤ (pyStrip text).length →
      (pyStrip text).length ≤ max_length →
      (∃ c ∈ (pyStrip text).data, isUnicodeLetter c) →
      validate_input text min_length max_length = (true, none)) := by
  have hne : ∀ text : String, pyStrip text ≠ "" → ¬(text = "" || pyStrip text = "") := by
    intro text h
    simp only [Bool.or_eq_true, decide_eq_true_eq, not_or]
    constructor
    · intro he; exact h (by rw [he]; rfl)
    · exact fun he => h (by exact he)
  refine ⟨?_, ?_, ?_, ?_, ?_⟩
  · intro text h
    simp [validate_input, h]
  · intro text h hlen
    simp only [validate_input, Bool.or_eq_true, decide_eq_true_eq]
    rw [if_neg (by simpa using hne text h)]
    simp [hlen]
  · intro text h hmin hmax
    simp only [validate_input, Bool.or_eq_true, decide_eq_true_eq]
    rw [if_neg (by simpa using hne text h)]
    rw [if_neg (by omega), if_pos (by omega)]
  · intro text h hmin hmax hletter
    simp only [validate_input, Bool.or_eq_true, decide_eq_true_eq]
    rw [if_neg (by simpa using hne text h)]
    rw [if_neg (by omega), if_neg (by omega), if_pos]
    simp only [Bool.not_eq_true', List.any_eq_false]
    intro c hc
    by_contra hc2
    exact hletter ⟨c, hc, by simpa using hc2⟩
  · intro text h hmin hmax hletter
    simp only [validate_input, Bool.or_eq_true, decide_eq_true_eq]
    rw [if_neg (by simpa using hne text h)]
    rw [if_neg (by omega), if_neg (by omega), if_neg]
    obtain ⟨c, hc, hc2⟩ := hletter
    simp only [Bool.not_eq_true', Bool.not_eq_false, List.any_eq_true]
    exact ⟨c, hc, hc2⟩

/-- Witness for C5: the spec's two concrete scenarios, the empty input and
the input `"Hi"`, produce the empty-text and too-short messages with the
default bounds 10/10000. -/
theorem claim_C5_validate_order_witness :
    validate_input "" 10 10000 = (false, some "Text cannot be empty") ∧
    validate_input "Hi" 10 10000 =
      (false, some "Text too short. Minimum 10 characters required") := by
  constructor
  · exact (claim_C5_validate_order 10 10000).1 "" rfl
  · exact (claim_C5_validate_order 10 10000).2.1 "Hi" (by decide) (by decide)

/-- C10: the length bounds of `validate_input` are measured against the
whitespace-stripped text, never the raw input: validation of any text equals
validation of its stripped form, so surrounding whitespace cannot push a
short text over `min_length` nor an in-bounds text over `max_length`.  The
two concrete conjuncts illustrate this: `"   Hi   "` has raw length 8 but is
still rejected as too short with `min_length = 3`, and `" aaaa "` has raw
length 6 > 4 = `max_length` yet passes validation. -/
theorem claim_C10_bounds_on_stripped :
    (∀ (text : String) (min_length max_length : Nat),
      validate_input text min_length max_length =
        validate_input (pyStrip text) min_length max_length) ∧
    validate_input "   Hi   " 3 10000 =
      (false, some "Text too short. Minimum 3 characters required") ∧
    validate_input " aaaa " 2 4 = (true, none) := by
  refine ⟨?_, by decide, by decide⟩
  intro text min_length max_length
  simp only [validate_input, pyStrip_idem]
  by_cases h : pyStrip text = ""
  · simp [h]
  · have hne : ¬ text = "" := fun he => h (by rw [he]; rfl)
    simp [h, hne]

/-- Model of Python's `str.upper()` as used on the model reply before the
classification/confidence regex searches (per-character uppercasing). -/
def pyUpper (s : String) : String := ⟨s.data.map Char.toUpper⟩

/-- Match a literal character sequence at the head of the input, returning
the remainder on success. -/
def matchLit : List Char → List Char → Option (List Char)
  | [], rest => some rest
  | _ :: _, [] => none
  | p :: ps, c :: cs => if c = p then matchLit ps cs else none

/-- Match a literal character sequence case-insensitively (the input is
uppercased character by character before comparison), returning the
remainder on success. -/
def matchLitCI : List Char → List Char → Option (List Char)
  | [], rest => some rest
  | _ :: _, [] => none
  | p :: ps, c :: cs => if c.toUpper = p then matchLitCI ps cs else none

/-- Match the separator fragment `\s*[:\-]\s*` shared by the three field
regexes of `_parse_model_response`, returning the remainder.  The greedy
`\s*` never needs backtracking here because `:` and `-` are not
whitespace. -/
def sepRest (l : List Char) : Option (List Char) :=
  match l.dropWhile isWs with
  | [] => none
  | c :: r => if c = ':' || c = '-' then some (r.dropWhile isWs) else none

/-- Decimal value of a digit sequence, as Python's `int()` computes it on
the digits captured by `(\d{1,3})`. -/
def digitsToNat (ds : List Char) : Nat :=
  ds.foldl (fun n c => 10 * n + (c.toNat - '0'.toNat)) 0

/-- Match of the regex `CONFIDENCE\s*[:\-]\s*(\d{1,3})` anchored at the head
of the input, returning the captured number.  The greedy `\d{1,3}` takes at
most three digits of the digit run. -/
def confSuffix (l : List Char) : Option Nat :=
  match matchLit "CONFIDENCE".data l with
  | none => none
  | some r =>
    match sepRest r with
    | none => none
    | some r2 =>
      let ds := (r2.takeWhile Char.isDigit).take 3
      if ds.isEmpty then none else some (digitsToNat ds)

/-- Model of `re.search` for `CONFIDENCE\s*[:\-]\s*(\d{1,3})`: try the
anchored match at every position, left to right. -/
def findConf : List Char → Option Nat
  | [] => none
  | c :: rest =>
    match confSuffix (c :: rest) with
    | some n => some n
    | none => findConf rest

/-- Match of the regex `CLASSIFICATION\s*[:\-]\s*(REAL|FAKE)` anchored at
the head of the input, returning the captured alternative. -/
def classSuffix (l : List Char) : Option String :=
  match matchLit "CLASSIFICATION".data l with
  | none => none
  | some r =>
    match sepRest r with
    | none => none
    | some r2 =>
      if "REAL".data.isPrefixOf r2 then some "REAL"
      else if "FAKE".data.isPrefixOf r2 then some "FAKE"
      else none

/-- Model of `re.search` for `CLASSIFICATION\s*[:\-]\s*(REAL|FAKE)`: try the
anchored match at every position, left to right. -/
def findClass : List Char → Option String
  | [] => none
  | c :: rest =>
    match classSuffix (c :: rest) with
    | some v => some v
    | none => findClass rest

/-- Match of the regex `REASONING\s*[:\-]\s*(.*)` (IGNORECASE, DOTALL)
anchored at the head of the input; the capture is the whole remainder. -/
def reasonSuffix (l : List Char) : Option (List Char) :=
  match matchLitCI "REASONING".data l with
  | none => none
  | some r => sepRest r

/-- Model of `re.search` for the reasoning regex: try the anchored match at
every position, left to right. -/
def findReason : List Char → Option (List Char)
  | [] => none
  | c :: rest =>
    match reasonSuffix (c :: rest) with
    | some cap => some cap
    | none => findReason rest

/-- Record built by `FakeNewsClassifier._parse_model_response`. -/
structure ParsedResponse where
  classification : String
  confidence : Int
  reasoning : String
  raw_response : String
deriving DecidableEq

/-- Body of `FakeNewsClassifier._parse_model_response`: uppercase the reply,
extract the classification (default `"UNKNOWN"`), extract and clamp the
confidence (default 50, then `max(0, min(100, ·))`), and extract the
reasoning (default: the stripped raw reply). -/
def parse_model_response_core (response : String) : ParsedResponse :=
  let response_upper := pyUpper response
  let classification := (findClass response_upper.data).getD "UNKNOWN"
  let confidence0 : Int :=
    match findConf response_upper.data with
    | some n => (n : Int)
    | none => 50
  let confidence := max 0 (min 100 confidence0)
  let reasoning :=
    match findReason response.data with
    | some cap => pyStrip ⟨cap⟩
    | none => pyStrip response
  { classification := classification, confidence := confidence,
    reasoning := reasoning, raw_response := response }

/-- Model of `FakeNewsClassifier._parse_model_response`, whose Python
signature is `Optional[Dict]`; every execution path of the body returns a
populated record, so the result is always `some`. -/
def parse_model_response (response : String) : Option ParsedResponse :=
  some (parse_model_response_core response)

lemma classSuffix_range (l : List Char) (v : String)
    (h : classSuffix l = some v) : v = "REAL" ∨ v = "FAKE" := by
  unfold classSuffix at h
  split at h
  · simp at h
  · split at h
    · simp at h
    · split at h
      · left; exact (Option.some_inj.mp h).symm
      · split at h
        · right; exact (Option.some_inj.mp h).symm
        · simp at h

lemma findClass_range (l : List Char) (v : String)
    (h : findClass l = some v) : v = "REAL" ∨ v = "FAKE" := by
  induction l with
  | nil => simp [findClass] at h
  | cons c rest ih =>
    unfold findClass at h
    split at h
    · next hc => exact classSuffix_range _ _ (by rw [hc]; exact congrArg some (Option.some_inj.mp h))
    · exact ih h

/-- C2: for every raw model reply, the parsed confidence is an integer in
[0,100]; if the regex search for `CONFIDENCE\s*[:\-]\s*(\d{1,3})` over the
uppercased reply succeeds with number `n`, the confidence is `n` clamped to
[0,100], and if it fails the confidence is 50. -/
theorem claim_C2_confidence_range :
    (∀ s : String, 0 ≤ (parse_model_response_core s).confidence ∧
      (parse_model_response_core s).confidence ≤ 100) ∧
    (∀ (s : String) (n : Nat), findConf (pyUpper s).data = some n →
      (parse_model_response_core s).confidence = max 0 (min 100 (n : Int))) ∧
    (∀ s : String, findConf (pyUpper s).data = none →
      (parse_model_response_core s).confidence = 50) := by
  refine ⟨?_, ?_, ?_⟩
  · intro s
    simp only [parse_model_response_core]
    constructor
    · exact le_max_left 0 _
    · exact max_le (by norm_num) (min_le_left _ _)
  · intro s n h
    simp [parse_model_response_core, h]
  · intro s h
    simp [parse_model_response_core, h]

/-- Witness for C2: the reply `"CONFIDENCE: 999"` matches the confidence
regex with the out-of-range number 999 and is clamped to 100. -/
theorem claim_C2_confidence_range_witness :
    findConf (pyUpper "CONFIDENCE: 999").data = some 999 ∧
    (parse_model_response_core "CONFIDENCE: 999").confidence =
      max 0 (min 100 (999 : Int)) ∧
    (parse_model_response_core "CONFIDENCE: 999").confidence = 100 := by
  have h1 : findConf (pyUpper "CONFIDENCE: 999").data = some 999 := by decide
  refine ⟨h1, claim_C2_confidence_range.2.1 "CONFIDENCE: 999" 999 h1, ?_⟩
  rw [claim_C2_confidence_range.2.1 "CONFIDENCE: 999" 999 h1]
  decide

/-- C8: the parsed classification is `"REAL"` or `"FAKE"` exactly when the
uppercased reply contains a match of `CLASSIFICATION\s*[:\-]\s*(REAL|FAKE)`
(the code's case-insensitive notion of a CLASSIFICATION label followed by
REAL or FAKE), and is `"UNKNOWN"` otherwise; the spec's concrete reply
parses to classification REAL with confidence 95, and parsing always
produces a record. -/
theorem claim_C8_classification :
    (∀ s : String,
      ((parse_model_response_core s).classification = "REAL" ∨
        (parse_model_response_core s).classification = "FAKE") ↔
      (findClass (pyUpper s).data).isSome = true) ∧
    (∀ s : String, findClass (pyUpper s).data = none →
      (parse_model_response_core s).classification = "UNKNOWN") ∧
    (parse_model_response_core
      "CLASSIFICATION: REAL\nCONFIDENCE: 95\nREASONING: ...").classification
      = "REAL" ∧
    (parse_model_response_core
      "CLASSIFICATION: REAL\nCONFIDENCE: 95\nREASONING: ...").confidence
      = 95 ∧
    (∀ s : String, (parse_model_response s).isSome = true) := by
  refine ⟨?_, ?_, by decide, by decide, fun _ => rfl⟩
  · intro s
    simp only [parse_model_response_core]
    rcases h : findClass (pyUpper s).data with _ | v
    · simp [h]
    · simp only [h, Option.getD_some, Option.isSome_some, iff_true]
      exact findClass_range _ _ h
  · intro s h
    simp [parse_model_response_core, h]

/-- Witness for C8: a plain-prose reply with no labels yields classification
`"UNKNOWN"`. -/
theorem claim_C8_classification_witness :
    findClass (pyUpper "just some prose").data = none ∧
    (parse_model_response_core "just some prose").classification = "UNKNOWN" := by
  have h : findClass (pyUpper "just some prose").data = none := by decide
  exact ⟨h, claim_C8_classification.2.1 "just some prose" h⟩

/-- Model of Python's `str.split()` with no arguments, as used by
`' '.join(text.split())` in `clean_text`: split on whitespace runs,
producing no empty tokens. -/
def pySplit : List Char → List (List Char)
  | [] => []
  | [c] => if isWs c then [] else [[c]]
  | c :: d :: cs =>
    if isWs c then pySplit (d :: cs)
    else
      match pySplit (d :: cs) with
      | [] => [[c]]
      | t :: ts => if isWs d then [c] :: t :: ts else (c :: t) :: ts

/-- Model of `' '.join(tokens)`: concatenate the tokens with a single space
between consecutive tokens. -/
def joinSp : List (List Char) → List Char
  | [] => []
  | [t] => t
  | t :: t2 :: ts => t ++ ' ' :: joinSp (t2 :: ts)

/-- Model of `re.sub(r'[^\w\s.,!?;:\'-]', '', text)`: keep exactly the
word characters, whitespace and allow-listed punctuation. -/
def filterKept (l : List Char) : List Char := l.filter isKept

/-- Model of `re.sub(r'([.,!?;:])\1+', r'\1', text)`: every maximal run of
a repeated character from `[.,!?;:]` is replaced by a single copy of that
character (runs of other characters are untouched), which this recursion
realises by dropping a collapsible character when the next character is
identical. -/
def collapsePunct : List Char → List Char
  | [] => []
  | [c] => [c]
  | c :: d :: rest =>
    if isCollapsiblePunct c && c == d then collapsePunct (d :: rest)
    else c :: collapsePunct (d :: rest)

/-- List-level composition of the four steps of
`TextPreprocessor.clean_text`: whitespace normalisation via
split-and-join, character filtering, punctuation-run collapsing, and a
final strip. -/
def cleanList (l : List Char) : List Char :=
  stripWs (collapsePunct (filterKept (joinSp (pySplit l))))

/-- Model of `TextPreprocessor.clean_text` (the empty-input guard returns
`""` directly; the `except` fallback is dead code in a total model). -/
def clean_text (text : String) : String :=
  if text = "" then "" else ⟨cleanList text.data⟩

/-- Reply record built by `OllamaHandler.generate_response` from the JSON
body of a successful HTTP response. -/
structure ModelReply where
  response : String
  model : String
  total_duration : Nat
  load_duration : Nat
  prompt_eval_count : Nat
  eval_count : Nat
deriving DecidableEq

/-- Outcome of one `requests.post` attempt inside
`OllamaHandler.generate_response`, one constructor per `except` arm of the
source (plus success). -/
inductive RequestOutcome where
  | success (reply : ModelReply)
  | timeout
  | connectionError
  | httpError
  | jsonDecodeError
  | otherError
deriving DecidableEq

/-- Model of the `for attempt in range(max_retries)` loop of
`OllamaHandler.generate_response`, with the network abstracted as a map
from attempt index to outcome.  The second component counts the HTTP
attempts actually performed.  A success returns the reply; a timeout
retries unless this was the last allowed attempt; every other outcome
returns `None` immediately. -/
def generateFrom (outcome : Nat → RequestOutcome) (max_retries attempt : Nat) :
    Option ModelReply × Nat :=
  if _h : attempt < max_retries then
    match outcome attempt with
    | .success reply => (some reply, attempt + 1)
    | .timeout =>
      if attempt = max_retries - 1 then (none, attempt + 1)
      else generateFrom outcome max_retries (attempt + 1)
    | .connectionError => (none, attempt + 1)
    | .httpError => (none, attempt + 1)
    | .jsonDecodeError => (none, attempt + 1)
    | .otherError => (none, attempt + 1)
  else (none, attempt)
termination_by max_retries - attempt
decreasing_by omega

/-- Model of `OllamaHandler.generate_response(prompt)`: run the retry loop
from attempt 0.  The prompt only shapes the request payload; the reply is
abstracted by `outcome`. -/
def generate_response (_prompt : String) (outcome : Nat → RequestOutcome)
    (max_retries : Nat) : Option ModelReply × Nat :=
  generateFrom outcome max_retries 0

/-- Feature record built by `TextPreprocessor.extract_features`. -/
structure Features where
  length : Nat
  word_count : Nat
  exclamation_count : Nat
  question_count : Nat
  uppercase_ratio : ℚ
  has_clickbait_words : Bool
deriving DecidableEq

/-- Model of `TextPreprocessor.extract_features`. -/
def extract_features (text : String) : Features :=
  { length := text.length
    word_count := (pySplit text.data).length
    exclamation_count := text.data.count '!'
    question_count := text.data.count '?'
    uppercase_ratio :=
      if text = "" then 0
      else (text.data.countP Char.isUpper : ℚ) / (text.length : ℚ)
    has_clickbait_words := false }

/-- Model of `FakeNewsClassifier._create_classification_prompt`. -/
def create_classification_prompt (text : String) : String :=
  "You are an expert fact-checker and misinformation analyst. Analyze the following news article or headline and determine if it is REAL or FAKE news.\n\nConsider the following factors:\n1. Sensationalism and emotional manipulation\n2. Factual claims that can be verified\n3. Source credibility indicators\n4. Logical consistency and coherence\n5. Use of clickbait language\n6. Presence of verifiable facts vs opinions\n\nNews Article/Headline:\n\"" ++
    text ++
    "\"\n\nProvide your analysis in the following format:\n\nCLASSIFICATION: [REAL or FAKE]\nCONFIDENCE: [A percentage from 0-100]\nREASONING: [Detailed explanation of your decision, highlighting specific indicators]\n\nBe thorough and analytical in your reasoning."

/-- Model-info record stored on the success path of
`FakeNewsClassifier.classify`. -/
structure ModelInfo where
  model : String
  eval_count : Nat
deriving DecidableEq

/-- Result record of `FakeNewsClassifier.classify`.  The Python result is a
dict whose key set differs per branch; keys absent in a branch are modelled
as `none`. -/
structure ClassifyResult where
  success : Bool
  error : Option String
  classification : Option String
  confidence : Int
  reasoning : Option String
  features : Option Features
  model_info : Option ModelInfo
deriving DecidableEq

/-- Model of `FakeNewsClassifier.classify`: validate (with the default
bounds 10/10000), short-circuit on validation failure, clean, extract
features, build the prompt, call the model client, short-circuit on a
missing reply, parse, and assemble the success record.  The second
component counts the HTTP attempts performed (0 when no model call is
made). -/
def classify (text : String) (outcome : Nat → RequestOutcome)
    (max_retries : Nat) : ClassifyResult × Nat :=
  let v := validate_input text 10 10000
  if v.1 = false then
    ({ success := false, error := v.2, classification := none,
       confidence := 0, reasoning := none, features := none,
       model_info := none }, 0)
  else
    let cleaned_text := clean_text text
    let features := extract_features cleaned_text
    let prompt := create_classification_prompt cleaned_text
    let mo := generate_response prompt outcome max_retries
    match mo.1 with
    | none =>
      ({ success := false,
         error := some "Failed to communicate with Ollama. Please ensure the service is running.",
         classification := none, confidence := 0, reasoning := none,
         features := none, model_info := none }, mo.2)
    | some model_output =>
      match parse_model_response model_output.response with
      | none =>
        ({ success := false, error := some "Failed to parse model response",
           classification := none, confidence := 0,
           reasoning := some model_output.response, features := none,
           model_info := none }, mo.2)
      | some parsed_result =>
        ({ success := true, error := none,
           classification := some parsed_result.classification,
           confidence := parsed_result.confidence,
           reasoning := some parsed_result.reasoning,
           features := some features,
           model_info := some { model := model_output.model,
                                eval_count := model_output.eval_count } }, mo.2)

lemma generateFrom_all_timeout (outcome : Nat → RequestOutcome)
    (max_retries : Nat) (h : ∀ i, outcome i = .timeout) :
    ∀ k attempt, max_retries - attempt ≤ k → attempt < max_retries →
      generateFrom outcome max_retries attempt = (none, max_retries) := by
  intro k
  induction k with
  | zero => intro a _ ha; omega
  | succ k ih =>
    intro a hk ha
    rw [generateFrom]
    simp only [dif_pos ha, h a]
    by_cases hl : a = max_retries - 1
    · rw [if_pos hl]
      have he : a + 1 = max_retries := by omega
      rw [he]
    · rw [if_neg hl]
      exact ih (a + 1) (by omega) (by omega)

lemma generateFrom_success0 (outcome : Nat → RequestOutcome)
    (max_retries : Nat) (r : ModelReply) (h : outcome 0 = .success r)
    (hn : 0 < max_retries) :
    generateFrom outcome max_retries 0 = (some r, 1) := by
  rw [generateFrom]
  simp [hn, h]

/-- C1: if every attempt times out, `generate_response` performs exactly
`max_retries` attempts and returns no reply, and `classify` on a valid
input consequently returns `success = false` with the
communication-failure message after exactly `max_retries` attempts. -/
theorem claim_C1_timeout_exhausts_retries
    (outcome : Nat → RequestOutcome) (max_retries : Nat) (text : String)
    (htimeout : ∀ i, outcome i = .timeout)
    (hvalid : (validate_input text 10 10000).1 = true) :
    (∀ prompt, generate_response prompt outcome max_retries =
      (none, max_retries)) ∧
    classify text outcome max_retries =
      ({ success := false,
         error := some "Failed to communicate with Ollama. Please ensure the service is running.",
         classification := none, confidence := 0, reasoning := none,
         features := none, model_info := none }, max_retries) := by
  have hgen : ∀ prompt, generate_response prompt outcome max_retries =
      (none, max_retries) := by
    intro prompt
    rw [generate_response]
    rcases Nat.eq_zero_or_pos max_retries with h0 | hpos
    · subst h0
      rw [generateFrom]
      simp
    · exact generateFrom_all_timeout outcome max_retries htimeout
        max_retries 0 (by omega) hpos
  refine ⟨hgen, ?_⟩
  simp only [classify, hvalid, hgen]
  norm_num

/-- Witness for C1: with a three-retry budget, an always-timing-out
endpoint and a valid input, `classify` fails with the communication message
after exactly 3 attempts. -/
theorem claim_C1_timeout_exhausts_retries_witness :
    (validate_input "This is a perfectly valid news headline." 10 10000).1
      = true ∧
    classify "This is a perfectly valid news headline."
      (fun _ => RequestOutcome.timeout) 3 =
      ({ success := false,
         error := some "Failed to communicate with Ollama. Please ensure the service is running.",
         classification := none, confidence := 0, reasoning := none,
         features := none, model_info := none }, 3) := by
  have hv : (validate_input "This is a perfectly valid news headline."
      10 10000).1 = true := by decide
  exact ⟨hv, (claim_C1_timeout_exhausts_retries
    (fun _ => RequestOutcome.timeout) 3
    "This is a perfectly valid news headline." (fun _ => rfl) hv).2⟩

/-- C6: when validation fails, `classify` returns immediately with
`success = false` and exactly the validation error message, and performs no
model call (zero HTTP attempts, independent of the endpoint behaviour). -/
theorem claim_C6_invalid_input_no_model_call
    (text : String) (outcome : Nat → RequestOutcome) (max_retries : Nat)
    (hinvalid : (validate_input text 10 10000).1 = false) :
    classify text outcome max_retries =
      ({ success := false, error := (validate_input text 10 10000).2,
         classification := none, confidence := 0, reasoning := none,
         features := none, model_info := none }, 0) := by
  simp [classify, hinvalid]

/-- Witness for C6: the empty input is rejected with the empty-text message
and zero HTTP attempts even though the endpoint would answer. -/
theorem claim_C6_invalid_input_no_model_call_witness :
    (validate_input "" 10 10000).1 = false ∧
    classify "" (fun _ => RequestOutcome.success
        { response := "CLASSIFICATION: REAL", model := "llama3:8b",
          total_duration := 0, load_duration := 0, prompt_eval_count := 0,
          eval_count := 0 }) 3 =
      ({ success := false, error := some "Text cannot be empty",
         classification := none, confidence := 0, reasoning := none,
         features := none, model_info := none }, 0) := by
  refine ⟨by decide, ?_⟩
  rw [claim_C6_invalid_input_no_model_call "" _ 3 (by decide)]
  decide

/-- C7: a connection error, HTTP error or JSON-decode error aborts
`generate_response` at once: if the attempts before index `k` all timed out
and attempt `k` hits one of these non-transient errors, the loop stops
right there with no reply after exactly `k + 1` attempts — no further
retries.  Only timeouts are retried. -/
theorem claim_C7_nontransient_errors_abort
    (outcome : Nat → RequestOutcome) (max_retries k : Nat)
    (hk : k < max_retries)
    (hbefore : ∀ i, i < k → outcome i = .timeout)
    (herr : outcome k = .connectionError ∨ outcome k = .httpError ∨
      outcome k = .jsonDecodeError) :
    ∀ prompt, generate_response prompt outcome max_retries = (none, k + 1) := by
  have main : ∀ fuel a, k - a ≤ fuel → a ≤ k →
      generateFrom outcome max_retries a = (none, k + 1) := by
    intro fuel
    induction fuel with
    | zero =>
      intro a hf ha
      have hak : a = k := by omega
      subst hak
      rw [generateFrom]
      simp only [dif_pos hk]
      rcases herr with h | h | h <;> rw [h]
    | succ f ih =>
      intro a hf ha
      by_cases hak : a = k
      · subst hak
        rw [generateFrom]
        simp only [dif_pos hk]
        rcases herr with h | h | h <;> rw [h]
      · have ha' : a < k := by omega
        rw [generateFrom]
        simp only [dif_pos (by omega : a < max_retries), hbefore a ha']
        rw [if_neg (by omega)]
        exact ih (a + 1) (by omega) (by omega)
  intro prompt
  rw [generate_response]
  exact main k 0 (by omega) (by omega)

/-- Witness for C7: with three allowed retries, a connection error on the
very first attempt makes `generate_response` fail after exactly one
attempt. -/
theorem claim_C7_nontransient_errors_abort_witness :
    (0 : Nat) < 3 ∧
    generate_response "p" (fun _ => RequestOutcome.connectionError) 3 =
      (none, 1) := by
  refine ⟨by decide, ?_⟩
  exact claim_C7_nontransient_errors_abort
    (fun _ => RequestOutcome.connectionError) 3 0 (by decide)
    (fun i hi => absurd hi (Nat.not_lt_zero i)) (Or.inl rfl) "p"

/-- C9: the response parser always returns a populated record (never
`none`), so the defensive parse-failure branch of `classify` is dead: for
every valid input and every model reply the client delivers, `classify`
returns `success = true`. -/
theorem claim_C9_parse_branch_unreachable
    (text : String) (outcome : Nat → RequestOutcome) (max_retries : Nat)
    (reply : ModelReply)
    (hvalid : (validate_input text 10 10000).1 = true)
    (hmodel : (generate_response
        (create_classification_prompt (clean_text text)) outcome
        max_retries).1 = some reply) :
    (∀ s : String, parse_model_response s ≠ none) ∧
    ((classify text outcome max_retries).1).success = true := by
  refine ⟨fun s => by simp [parse_model_response], ?_⟩
  simp only [classify, hvalid, hmodel, parse_model_response]
  norm_num

/-- Witness for C9: a valid input with an endpoint that answers on the
first attempt classifies with `success = true`. -/
theorem claim_C9_parse_branch_unreachable_witness :
    (validate_input "This is a perfectly valid news headline." 10 10000).1
      = true ∧
    ((classify "This is a perfectly valid news headline."
      (fun _ => RequestOutcome.success
        { response := "CLASSIFICATION: REAL", model := "llama3:8b",
          total_duration := 0, load_duration := 0, prompt_eval_count := 0,
          eval_count := 0 }) 3).1).success = true := by
  have hv : (validate_input "This is a perfectly valid news headline."
      10 10000).1 = true := by decide
  have hm : (generate_response
      (create_classification_prompt
        (clean_text "This is a perfectly valid news headline."))
      (fun _ => RequestOutcome.success
        { response := "CLASSIFICATION: REAL", model := "llama3:8b",
          total_duration := 0, load_duration := 0, prompt_eval_count := 0,
          eval_count := 0 }) 3).1 = some
        { response := "CLASSIFICATION: REAL", model := "llama3:8b",
          total_duration := 0, load_duration := 0, prompt_eval_count := 0,
          eval_count := 0 } := by
    rw [generate_response, generateFrom_success0 _ 3 _ rfl (by decide)]
  exact ⟨hv, (claim_C9_parse_branch_unreachable
    "This is a perfectly valid news headline." _ 3 _ hv hm).2⟩

/-- Relation forbidding two adjacent whitespace characters. -/
def noDoubleWs (a b : Char) : Prop := ¬(isWs a = true ∧ isWs b = true)

/-- Relation forbidding two adjacent identical characters from the
collapse class `[.,!?;:]`. -/
def noIdentCollapsible (a b : Char) : Prop :=
  ¬(a = b ∧ isCollapsiblePunct a = true)

/-- Scanner for the property claimed of `clean_text` output: true iff the
list has two adjacent identical allow-list punctuation characters or two
adjacent whitespace characters (a whitespace run longer than one). -/
def hasClaimBadPair : List Char → Bool
  | [] => false
  | [_] => false
  | a :: b :: rest =>
    ((a == b && isAllowedPunct a) || (isWs a && isWs b)) ||
      hasClaimBadPair (b :: rest)

/-- Scanner for adjacent identical characters from the collapse class
`[.,!?;:]`. -/
def hasCollapsibleRun : List Char → Bool
  | [] => false
  | [_] => false
  | a :: b :: rest =>
    (a == b && isCollapsiblePunct a) || hasCollapsibleRun (b :: rest)

lemma hasCollapsibleRun_eq_false_iff :
    ∀ l : List Char,
      hasCollapsibleRun l = false ↔ List.Chain' noIdentCollapsible l
  | [] => by simp [hasCollapsibleRun, List.chain'_nil]
  | [c] => by simp [hasCollapsibleRun, List.chain'_singleton]
  | a :: b :: rest => by
    rw [hasCollapsibleRun, List.chain'_cons,
      ← hasCollapsibleRun_eq_false_iff (b :: rest)]
    rw [Bool.or_eq_false_iff, Bool.and_eq_false_iff]
    constructor
    · rintro ⟨h1, h2⟩
      refine ⟨?_, h2⟩
      rintro ⟨hab, hc⟩
      rcases h1 with h1 | h1
      · rw [hab] at h1; simp at h1
      · rw [hc] at h1; exact absurd h1 (by simp)
    · rintro ⟨h1, h2⟩
      refine ⟨?_, h2⟩
      by_cases hab : a = b
      · right
        by_contra hc
        exact h1 ⟨hab, by revert hc; cases isCollapsiblePunct a <;> simp⟩
      · left; simp [hab]

lemma collapsePunct_head? :
    ∀ l : List Char, (collapsePunct l).head? = l.head?
  | [] => rfl
  | [_] => rfl
  | c :: d :: rest => by
    rw [collapsePunct]
    by_cases h : (isCollapsiblePunct c && c == d) = true
    · rw [if_pos h, collapsePunct_head? (d :: rest)]
      have hcd : c = d := beq_iff_eq.mp (Bool.and_elim_right h)
      rw [hcd]
      rfl
    · rw [if_neg h]
      rfl

lemma collapsePunct_chain' :
    ∀ l : List Char, List.Chain' noIdentCollapsible (collapsePunct l)
  | [] => List.chain'_nil
  | [c] => List.chain'_singleton c
  | c :: d :: rest => by
    rw [collapsePunct]
    by_cases h : (isCollapsiblePunct c && c == d) = true
    · rw [if_pos h]; exact collapsePunct_chain' (d :: rest)
    · rw [if_neg h]
      rw [List.chain'_cons']
      refine ⟨?_, collapsePunct_chain' (d :: rest)⟩
      intro y hy
      rw [collapsePunct_head? (d :: rest)] at hy
      simp only [List.head?_cons, Option.mem_def, Option.some_inj] at hy
      subst hy
      rintro ⟨hcd, hcoll⟩
      exact h (by rw [Bool.and_eq_true, beq_iff_eq]; exact ⟨hcoll, hcd⟩)

lemma collapsePunct_chain'_ws :
    ∀ l : List Char, List.Chain' noDoubleWs l →
      List.Chain' noDoubleWs (collapsePunct l)
  | [] => fun _ => List.chain'_nil
  | [c] => fun _ => List.chain'_singleton c
  | c :: d :: rest => by
    intro h
    rw [List.chain'_cons] at h
    rw [collapsePunct]
    by_cases hb : (isCollapsiblePunct c && c == d) = true
    · rw [if_pos hb]; exact collapsePunct_chain'_ws (d :: rest) h.2
    · rw [if_neg hb]
      rw [List.chain'_cons']
      refine ⟨?_, collapsePunct_chain'_ws (d :: rest) h.2⟩
      intro y hy
      rw [collapsePunct_head? (d :: rest)] at hy
      simp only [List.head?_cons, Option.mem_def, Option.some_inj] at hy
      subst hy
      exact h.1

lemma collapsePunct_subset :
    ∀ l : List Char, ∀ x ∈ collapsePunct l, x ∈ l
  | [] => by simp [collapsePunct]
  | [c] => by simp [collapsePunct]
  | c :: d :: rest => by
    intro x hx
    rw [collapsePunct] at hx
    by_cases h : (isCollapsiblePunct c && c == d) = true
    · rw [if_pos h] at hx
      exact List.mem_cons_of_mem c (collapsePunct_subset (d :: rest) x hx)
    · rw [if_neg h] at hx
      rcases List.mem_cons.mp hx with h1 | h1
      · exact h1 ▸ List.mem_cons_self x (d :: rest)
      · exact List.mem_cons_of_mem c (collapsePunct_subset (d :: rest) x h1)

lemma stripWs_isInfixOf (l : List Char) : stripWs l <:+: l := by
  have h1 : stripWs l <+: l.dropWhile isWs :=
    List.rdropWhile_prefix isWs (l.dropWhile isWs)
  have h2 : l.dropWhile isWs <:+ l := List.dropWhile_suffix isWs
  have h3 : stripWs l <:+: l.dropWhile isWs := List.IsPrefix.isInfix h1
  have h4 : l.dropWhile isWs <:+: l := List.IsSuffix.isInfix h2
  exact List.IsInfix.trans h3 h4

/-- Counterexample for C4: on input `"a-- @ b"`, `clean_text` outputs
`"a--  b"`, which contains a run of two identical allow-list punctuation
marks (`--`, since the collapse regex class omits the hyphen and the
apostrophe) and a whitespace run of length two (created by removing `@`
after whitespace was already collapsed). -/
theorem claim_C4_counterexample :
    clean_text "a-- @ b" = "a--  b" ∧
    hasClaimBadPair (clean_text "a-- @ b").data = true := by
  exact ⟨by decide, by decide⟩

/-- C4 (amended): for every input, `clean_text` output contains no run of
two or more identical punctuation marks from the collapse class
`. , ! ? ; :` — but runs of apostrophes or hyphens, and whitespace runs
created by character removal, can survive. -/
theorem claim_C4_amended_no_collapsible_runs (s : String) :
    hasCollapsibleRun (clean_text s).data = false := by
  rw [clean_text]
  by_cases h : s = ""
  · rw [if_pos h]; rfl
  · rw [if_neg h]
    rw [hasCollapsibleRun_eq_false_iff]
    exact List.Chain'.infix (collapsePunct_chain' _) (stripWs_isInfixOf _)

/-- Counterexample for C3: `clean_text` is not idempotent.  On `"a @ b"`
the first pass removes `@` after whitespace collapsing, leaving the double
space in `"a  b"`; the second pass collapses it to `"a b"`. -/
theorem claim_C3_counterexample :
    clean_text (clean_text "a @ b") ≠ clean_text "a @ b" := by decide

/-- Well-formedness of a `pySplit` token list: every token is nonempty and
free of whitespace. -/
def TokensOk (ts : List (List Char)) : Prop :=
  ∀ t ∈ ts, t ≠ [] ∧ ∀ c ∈ t, isWs c = false

lemma singleTokenOk (c : Char) (hc : ¬ isWs c = true) : TokensOk [[c]] := by
  intro t ht
  simp only [List.mem_singleton] at ht
  subst ht
  refine ⟨by simp, ?_⟩
  intro x hx
  simp only [List.mem_singleton] at hx
  subst hx
  simpa using hc

lemma pySplit_tokensOk : ∀ l : List Char, TokensOk (pySplit l)
  | [] => by intro t ht; simp [pySplit] at ht
  | [c] => by
    rw [pySplit]
    by_cases hc : isWs c
    · rw [if_pos hc]; intro t ht; simp at ht
    · rw [if_neg hc]; exact singleTokenOk c hc
  | c :: d :: cs => by
    rw [pySplit]
    by_cases hc : isWs c
    · rw [if_pos hc]; exact pySplit_tokensOk (d :: cs)
    · rw [if_neg hc]
      have ih := pySplit_tokensOk (d :: cs)
      rcases hps : pySplit (d :: cs) with _ | ⟨t0, ts0⟩
      · exact singleTokenOk c hc
      · rw [hps] at ih
        show TokensOk
          (if isWs d = true then [c] :: t0 :: ts0 else (c :: t0) :: ts0)
        by_cases hd : isWs d
        · rw [if_pos hd]
          intro t ht
          rcases List.mem_cons.mp ht with h1 | h1
          · subst h1; exact singleTokenOk c hc [c] (by simp)
          · exact ih t h1
        · rw [if_neg hd]
          intro t ht
          rcases List.mem_cons.mp ht with h1 | h1
          · subst h1
            have ht0 := ih t0 (List.mem_cons_self t0 ts0)
            refine ⟨by simp, ?_⟩
            intro x hx
            rcases List.mem_cons.mp hx with h2 | h2
            · subst h2; simpa using hc
            · exact ht0.2 x h2
          · exact ih t (List.mem_cons_of_mem t0 h1)

lemma pySplit_sub : ∀ l : List Char, ∀ t ∈ pySplit l, ∀ x ∈ t, x ∈ l
  | [] => by intro t ht; simp [pySplit] at ht
  | [c] => by
    rw [pySplit]
    by_cases hc : isWs c
    · rw [if_pos hc]; intro t ht; simp at ht
    · rw [if_neg hc]
      intro t ht x hx
      simp only [List.mem_singleton] at ht
      subst ht
      simpa using hx
  | c :: d :: cs => by
    rw [pySplit]
    by_cases hc : isWs c
    · rw [if_pos hc]
      intro t ht x hx
      exact List.mem_cons_of_mem c (pySplit_sub (d :: cs) t ht x hx)
    · rw [if_neg hc]
      have ih := pySplit_sub (d :: cs)
      rcases hps : pySplit (d :: cs) with _ | ⟨t0, ts0⟩
      · intro t ht x hx
        simp only [List.mem_singleton] at ht
        subst ht
        simp only [List.mem_singleton] at hx
        subst hx
        exact List.mem_cons_self x (d :: cs)
      · rw [hps] at ih
        show ∀ t ∈
            (if isWs d = true then [c] :: t0 :: ts0 else (c :: t0) :: ts0),
          ∀ x ∈ t, x ∈ c :: d :: cs
        by_cases hd : isWs d
        · rw [if_pos hd]
          intro t ht x hx
          rcases List.mem_cons.mp ht with h1 | h1
          · subst h1
            simp only [List.mem_singleton] at hx
            subst hx
            exact List.mem_cons_self x (d :: cs)
          · exact List.mem_cons_of_mem c (ih t h1 x hx)
        · rw [if_neg hd]
          intro t ht x hx
          rcases List.mem_cons.mp ht with h1 | h1
          · subst h1
            rcases List.mem_cons.mp hx with h2 | h2
            · subst h2; exact List.mem_cons_self x (d :: cs)
            · exact List.mem_cons_of_mem c
                (ih t0 (List.mem_cons_self t0 ts0) x h2)
          · exact List.mem_cons_of_mem c
              (ih t (List.mem_cons_of_mem t0 h1) x hx)

lemma pySplit_ne_nil (c : Char) (cs : List Char) (hc : ¬ isWs c = true) :
    pySplit (c :: cs) ≠ [] := by
  rcases cs with _ | ⟨d, cs'⟩
  · rw [pySplit, if_neg hc]; simp
  · rw [pySplit, if_neg hc]
    rcases hps : pySplit (d :: cs') with _ | ⟨t0, ts0⟩
    · simp
    · show (if isWs d = true then [c] :: t0 :: ts0 else (c :: t0) :: ts0) ≠ []
      by_cases hd : isWs d
      · rw [if_pos hd]; simp
      · rw [if_neg hd]; simp

lemma joinSp_cons_cons (c : Char) (t : List Char) (ts : List (List Char)) :
    joinSp ((c :: t) :: ts) = c :: joinSp (t :: ts) := by
  cases ts with
  | nil => rfl
  | cons t2 ts => rfl

lemma joinSp_head_eq (t : List Char) (ts : List (List Char)) (h : t ≠ []) :
    (joinSp (t :: ts)).head? = t.head? := by
  cases ts with
  | nil => rfl
  | cons t2 ts =>
    rw [joinSp, List.head?_append]
    rcases t with _ | ⟨a, t'⟩
    · exact absurd rfl h
    · rfl

lemma joinSp_subset :
    ∀ ts : List (List Char), ∀ x ∈ joinSp ts, x = ' ' ∨ ∃ t ∈ ts, x ∈ t
  | [] => by simp [joinSp]
  | [t] => by
    intro x hx
    right
    exact ⟨t, List.mem_singleton_self t, by simpa [joinSp] using hx⟩
  | t :: t2 :: ts => by
    intro x hx
    rw [joinSp] at hx
    rcases List.mem_append.mp hx with h1 | h1
    · right; exact ⟨t, List.mem_cons_self t (t2 :: ts), h1⟩
    · rcases List.mem_cons.mp h1 with h2 | h2
      · left; exact h2
      · rcases joinSp_subset (t2 :: ts) x h2 with h3 | ⟨t', ht', hx'⟩
        · left; exact h3
        · right; exact ⟨t', List.mem_cons_of_mem t ht', hx'⟩

lemma chain'_of_all_not_ws (t : List Char)
    (h : ∀ c ∈ t, isWs c = false) : List.Chain' noDoubleWs t := by
  refine List.Pairwise.chain' (List.pairwise_of_forall_mem_list ?_)
  intro a ha b _
  rintro ⟨ha', _⟩
  rw [h a ha] at ha'
  cases ha'

lemma joinSp_chain'_ws :
    ∀ ts : List (List Char), TokensOk ts →
      List.Chain' noDoubleWs (joinSp ts)
  | [] => fun _ => List.chain'_nil
  | [t] => fun h => chain'_of_all_not_ws t (h t (List.mem_singleton_self t)).2
  | t :: t2 :: ts => by
    intro h
    have ht := h t (List.mem_cons_self t (t2 :: ts))
    have hrest : TokensOk (t2 :: ts) :=
      fun u hu => h u (List.mem_cons_of_mem t hu)
    have ht2 := hrest t2 (List.mem_cons_self t2 ts)
    rw [joinSp, List.chain'_append]
    refine ⟨chain'_of_all_not_ws t ht.2, ?_, ?_⟩
    · rw [List.chain'_cons']
      refine ⟨?_, joinSp_chain'_ws (t2 :: ts) hrest⟩
      intro y hy
      rw [joinSp_head_eq t2 ts ht2.1] at hy
      have hy' : y ∈ t2 := by
        rcases t2 with _ | ⟨a, t2'⟩
        · simp at hy
        · simp only [List.head?_cons, Option.mem_def, Option.some_inj] at hy
          subst hy
          exact List.mem_cons_self a t2'
      rintro ⟨_, h2⟩
      rw [ht2.2 y hy'] at h2
      cases h2
    · intro x hx y hy
      simp only [List.head?_cons, Option.mem_def, Option.some_inj] at hy
      have hx' : x ∈ t :=
        List.mem_of_getLast?_eq_some (Option.mem_def.mp hx)
      rintro ⟨h1, _⟩
      rw [ht.2 x hx'] at h1
      cases h1

lemma joinSp_ws_space (ts : List (List Char)) (h : TokensOk ts) :
    ∀ x ∈ joinSp ts, isWs x = true → x = ' ' := by
  intro x hx hws
  rcases joinSp_subset ts x hx with h1 | ⟨t, ht, hxt⟩
  · exact h1
  · rw [(h t ht).2 x hxt] at hws
    cases hws

lemma stripWs_head_not_ws (l : List Char) :
    ∀ y, (stripWs l).head? = some y → isWs y = false := by
  intro y hy
  have h := List.head?_dropWhile_not isWs (stripWs l)
  rw [dropWhile_stripWs l, hy] at h
  exact h

lemma stripWs_getLast_not_ws (l : List Char) :
    ∀ y, (stripWs l).getLast? = some y → isWs y = false := by
  intro y hy
  have hne : stripWs l ≠ [] := by
    intro h
    rw [h] at hy
    cases hy
  have hne' : (l.dropWhile isWs).rdropWhile isWs ≠ [] := by rwa [stripWs] at hne
  have h := List.rdropWhile_last_not isWs (l.dropWhile isWs) hne'
  have hg : ((l.dropWhile isWs).rdropWhile isWs).getLast hne' = y := by
    have h2 := List.getLast?_eq_getLast ((l.dropWhile isWs).rdropWhile isWs) hne'
    rw [stripWs] at hy
    rw [h2] at hy
    exact Option.some_inj.mp hy
  rw [hg] at h
  simpa using h

lemma stripWs_eq_self (l : List Char)
    (h1 : ∀ y, l.head? = some y → isWs y = false)
    (h2 : ∀ y, l.getLast? = some y → isWs y = false) :
    stripWs l = l := by
  rw [stripWs]
  have hd : l.dropWhile isWs = l := by
    rcases l with _ | ⟨a, l'⟩
    · rfl
    · rw [List.dropWhile_cons_of_neg]
      simp [h1 a rfl]
  rw [hd, List.rdropWhile_eq_self_iff]
  intro hl
  have h3 := h2 (l.getLast hl) (List.getLast?_eq_getLast l hl)
  simp [h3]

lemma collapsePunct_eq_self :
    ∀ l : List Char, List.Chain' noIdentCollapsible l → collapsePunct l = l
  | [] => fun _ => rfl
  | [_] => fun _ => rfl
  | c :: d :: rest => by
    intro h
    rw [List.chain'_cons] at h
    have hcond : ¬ (isCollapsiblePunct c && c == d) = true := by
      intro hb
      exact h.1 ⟨beq_iff_eq.mp (Bool.and_elim_right hb), Bool.and_elim_left hb⟩
    rw [collapsePunct, if_neg hcond, collapsePunct_eq_self (d :: rest) h.2]

lemma joinSp_pySplit_eq_self :
    ∀ (n : Nat) (l : List Char), l.length ≤ n →
      (∀ c ∈ l, isWs c = true → c = ' ') →
      List.Chain' noDoubleWs l →
      (∀ y, l.head? = some y → isWs y = false) →
      (∀ y, l.getLast? = some y → isWs y = false) →
      joinSp (pySplit l) = l := by
  intro n
  induction n with
  | zero =>
    intro l hlen _ _ _ _
    have h0 : l = [] := List.length_eq_zero.mp (Nat.le_zero.mp hlen)
    subst h0
    rfl
  | succ n ih =>
    intro l hlen hsp hch hhd hlast
    rcases l with _ | ⟨c, cs⟩
    · rfl
    · have hc : isWs c = false := hhd c rfl
      have hc' : ¬ isWs c = true := by simp [hc]
      rcases cs with _ | ⟨d, cs'⟩
      · rw [pySplit, if_neg hc']
        rfl
      · rw [pySplit, if_neg hc']
        by_cases hd : isWs d = true
        · have hd' : d = ' ' := hsp d (by simp) hd
          rcases cs' with _ | ⟨e, cs''⟩
          · exfalso
            have hdl := hlast d (by simp)
            rw [hdl] at hd
            cases hd
          · rw [List.chain'_cons, List.chain'_cons] at hch
            have he : isWs e = false := by
              by_contra he'
              exact hch.2.1 ⟨hd, by simpa using he'⟩
            have he' : ¬ isWs e = true := by simp [he]
            have hps_d : pySplit (d :: e :: cs'') = pySplit (e :: cs'') := by
              rw [pySplit, if_pos hd]
            rw [hps_d]
            have hihe : joinSp (pySplit (e :: cs'')) = e :: cs'' := by
              refine ih (e :: cs'') (by simp at hlen ⊢; omega) ?_ hch.2.2 ?_ ?_
              · intro x hx hwsx
                exact hsp x (List.mem_cons_of_mem c (List.mem_cons_of_mem d hx)) hwsx
              · intro y hy
                simp only [List.head?_cons, Option.some_inj] at hy
                subst hy
                exact he
              · intro y hy
                exact hlast y (by simpa using hy)
            rcases hps : pySplit (e :: cs'') with _ | ⟨t0, ts0⟩
            · exact absurd hps (pySplit_ne_nil e cs'' he')
            · rw [hps] at hihe
              show joinSp
                (if isWs d = true then [c] :: t0 :: ts0 else (c :: t0) :: ts0)
                = c :: d :: e :: cs''
              rw [if_pos hd]
              show [c] ++ ' ' :: joinSp (t0 :: ts0) = c :: d :: e :: cs''
              rw [hihe, hd']
              rfl
        · have hd2 : isWs d = false := by simpa using hd
          have hihd : joinSp (pySplit (d :: cs')) = d :: cs' := by
            refine ih (d :: cs') (by simp at hlen ⊢; omega) ?_ ?_ ?_ ?_
            · intro x hx hwsx
              exact hsp x (List.mem_cons_of_mem c hx) hwsx
            · rw [List.chain'_cons] at hch
              exact hch.2
            · intro y hy
              simp only [List.head?_cons, Option.some_inj] at hy
              subst hy
              exact hd2
            · intro y hy
              exact hlast y (by simpa using hy)
          rcases hps : pySplit (d :: cs') with _ | ⟨t0, ts0⟩
          · exact absurd hps (pySplit_ne_nil d cs' hd)
          · rw [hps] at hihd
            show joinSp
              (if isWs d = true then [c] :: t0 :: ts0 else (c :: t0) :: ts0)
              = c :: d :: cs'
            rw [if_neg hd, joinSp_cons_cons, hihd]

/-- Normal form reached by `cleanList` after two passes: only kept
characters, whitespace only as single interior spaces, no adjacent
identical collapsible punctuation, and non-whitespace ends.  On such lists
`cleanList` is the identity. -/
def CleanNormal (l : List Char) : Prop :=
  (∀ c ∈ l, isKept c = true) ∧
  (∀ c ∈ l, isWs c = true → c = ' ') ∧
  List.Chain' noDoubleWs l ∧
  List.Chain' noIdentCollapsible l ∧
  (∀ y, l.head? = some y → isWs y = false) ∧
  (∀ y, l.getLast? = some y → isWs y = false)

lemma cleanNormal_nil : CleanNormal [] := by
  refine ⟨?_, ?_, List.chain'_nil, List.chain'_nil, ?_, ?_⟩
  · intro c hc; cases hc
  · intro c hc; cases hc
  · intro y hy; cases hy
  · intro y hy; cases hy

lemma cleanList_eq_self (l : List Char) (h : CleanNormal l) :
    cleanList l = l := by
  obtain ⟨hk, hsp, hws, hcp, hhd, hlast⟩ := h
  rw [cleanList,
    joinSp_pySplit_eq_self l.length l le_rfl hsp hws hhd hlast,
    filterKept, List.filter_eq_self.mpr hk,
    collapsePunct_eq_self l hcp]
  exact stripWs_eq_self l hhd hlast

lemma cleanList_kept (l : List Char) :
    ∀ x ∈ cleanList l, isKept x = true := by
  intro x hx
  rw [cleanList] at hx
  have h1 : x ∈ collapsePunct (filterKept (joinSp (pySplit l))) :=
    List.Sublist.mem hx (stripWs_isInfixOf _).sublist
  have h2 := collapsePunct_subset _ x h1
  exact List.of_mem_filter h2

lemma cleanNormal_cleanList (l : List Char)
    (hk : ∀ c ∈ l, isKept c = true) : CleanNormal (cleanList l) := by
  have hta := pySplit_tokensOk l
  have haws : List.Chain' noDoubleWs (joinSp (pySplit l)) :=
    joinSp_chain'_ws _ hta
  have hasp : ∀ x ∈ joinSp (pySplit l), isWs x = true → x = ' ' :=
    joinSp_ws_space _ hta
  have hak : ∀ x ∈ joinSp (pySplit l), isKept x = true := by
    intro x hx
    rcases joinSp_subset _ x hx with h1 | ⟨t, ht, hxt⟩
    · subst h1; decide
    · exact hk x (pySplit_sub l t ht x hxt)
  have hfa : filterKept (joinSp (pySplit l)) = joinSp (pySplit l) :=
    List.filter_eq_self.mpr hak
  rw [cleanList, hfa]
  refine ⟨?_, ?_, ?_, ?_, stripWs_head_not_ws _, stripWs_getLast_not_ws _⟩
  · intro x hx
    exact hak x (collapsePunct_subset _ x
      (List.Sublist.mem hx (stripWs_isInfixOf _).sublist))
  · intro x hx
    exact hasp x (collapsePunct_subset _ x
      (List.Sublist.mem hx (stripWs_isInfixOf _).sublist))
  · exact List.Chain'.infix (collapsePunct_chain'_ws _ haws) (stripWs_isInfixOf _)
  · exact List.Chain'.infix (collapsePunct_chain' _) (stripWs_isInfixOf _)

lemma clean_text_kept (s : String) :
    ∀ x ∈ (clean_text s).data, isKept x = true := by
  rw [clean_text]
  by_cases h : s = ""
  · rw [if_pos h]
    intro x hx
    cases hx
  · rw [if_neg h]
    exact cleanList_kept s.data

lemma clean_text_of_cleanNormal (s : String) (h : CleanNormal s.data) :
    clean_text s = s := by
  rw [clean_text]
  by_cases he : s = ""
  · rw [if_pos he, he]
  · rw [if_neg he, cleanList_eq_self s.data h]

/-- C3 (amended): `clean_text` is not idempotent, but it is idempotent from
the second application onward: a double clean is a fixed point, so
`clean(clean(clean(x))) = clean(clean(x))` for every input.  Single-pass
idempotence fails only because removing a disallowed character can leave a
whitespace run that the next pass collapses. -/
theorem claim_C3_amended_double_clean_fixed (s : String) :
    clean_text (clean_text (clean_text s)) = clean_text (clean_text s) := by
  apply clean_text_of_cleanNormal
  rw [clean_text]
  by_cases h : clean_text s = ""
  · rw [if_pos h]
    exact cleanNormal_nil
  · rw [if_neg h]
    exact cleanNormal_cleanList (clean_text s).data (clean_text_kept s)

end TruthLens
